import Mathlib

/-!
Verification of the HEIC2any task-manager core.

This file gives a shallow embedding of the concurrency-control core of the
repository (`src/heic2any/core/tasks.py`, `state.py`, `event_bus.py`,
`cancellation.py`) and proves properties of it.

Modelling conventions:
- Python's unbounded `int` is `Int` where signedness matters (constructor
  arguments) and `Nat` for clamped internal counts, indices and progress.
- The mutable `JobItem` dataclass becomes an immutable record; in-place
  mutation becomes functional update of the job list held in the manager
  state.
- `threading.Event` flags become `Bool` fields; `queue.Queue(maxsize)`
  becomes a `List Nat` of job indices (front = next `get`) together with the
  stored capacity: `put(idx, timeout=...)` succeeds exactly when the queue
  has a free slot (the run in which no consumer frees a slot during the
  timeout window), and raises `queue.Full` otherwise, modelled as `Option`.
- Side effects observable by collaborators (the `on_job_update` /
  `on_overall_update` callbacks and `EventBus` publications, and calls into
  the external conversion collaborator) are recorded in an event trace.
- The external collaborators `build_output_path` + `converter.convert_one`
  (opaque per the specification) are a single oracle
  `conv : Nat → JobItem → Except String (Nat × Nat)`; an `Except.error`
  models any exception raised by them, carrying `str(e)`.
- Sequential executions are modelled: the flag fields read inside a loop are
  constant for the duration of that loop body.
-/

set_option maxHeartbeats 1000000

/-- CancellationToken from `core/cancellation.py`: a one-way flag backed by a
`threading.Event`. -/
structure CancellationToken where
  cancelled : Bool := false
deriving DecidableEq, Repr, Inhabited

/-- Token cancellation: `self._evt.set()`. -/
def CancellationToken.cancel (t : CancellationToken) : CancellationToken :=
  { t with cancelled := true }

/-- Job status enum from `core/state.py`. -/
inductive JobStatus where
  | waiting
  | running
  | paused
  | completed
  | failed
  | cancelled
deriving DecidableEq, Repr, Inhabited

/-- JobItem dataclass from `core/state.py` (fields and defaults as in the
source; runtime fields `status`, `progress`, `error`, `orig_size` are the
ones the task manager mutates). -/
structure JobItem where
  src_path : String
  export_dir : String
  export_format : String := ("jpg")
  quality : Nat := 90
  png_compress_level : Nat := 6
  dpi : Nat × Nat := (300, 300)
  req_size : Nat × Nat := (0, 0)
  keep_aspect : Bool := true
  template : String := ("\x7bname\x7d_\x7bindex\x7d")
  status : JobStatus := JobStatus.waiting
  progress : Nat := 0
  error : Option String := none
  orig_size : Nat × Nat := (0, 0)
  src_bytes : Nat := 0
  jpeg_progressive : Bool := false
  jpeg_optimize : Bool := true
  png_optimize : Bool := false
  webp_lossless : Bool := false
  webp_method : Nat := 4
  tiff_compression : String := ("tiff_deflate")
  token : CancellationToken := {}
deriving DecidableEq, Repr, Inhabited

/-- Event types from `core/event_bus.py`. -/
inductive EventType where
  | job_updated
  | overall_updated
  | all_done
deriving DecidableEq, Repr, Inhabited

/-- EventBus from `core/event_bus.py`: a map from event type to the list of
registered handlers, in registration order. Handlers are opaque values of
type `H`; their effect is supplied to `publish` as an oracle. -/
structure EventBus (H : Type) where
  subs : EventType → List H

/-- Fresh bus: `self._subs = \x7b\x7d`. -/
def EventBus.empty (H : Type) : EventBus H := ⟨fun _ => []⟩

/-- Subscribe: `self._subs.setdefault(etype, []).append(handler)`. -/
def EventBus.subscribe {H : Type} (b : EventBus H) (etype : EventType)
    (handler : H) : EventBus H :=
  ⟨fun t => if t = etype then b.subs t ++ [handler] else b.subs t⟩

/-- Body of `EventBus.publish`: `for h in handlers: try h(payload) except
Exception: pass`. The oracle `run` gives each handler's outcome on the
payload (`Except.error` = the handler raised). The returned trace records
each invocation and its outcome; the `except ... pass` makes the raising
branch continue identically to the normal branch, so the loop is total and
no handler failure escapes to the publisher. -/
def publishRun {H P E : Type} (run : H → P → Except E Unit) (payload : P) :
    List H → List (H × Except E Unit)
  | [] => []
  | h :: hs =>
    match run h payload with
    | Except.ok u => (h, Except.ok u) :: publishRun run payload hs
    | Except.error e => (h, Except.error e) :: publishRun run payload hs

/-- Publish: snapshot the handler list for the event type under the lock,
then invoke each handler in order. -/
def EventBus.publish {H P E : Type} (run : H → P → Except E Unit)
    (b : EventBus H) (etype : EventType) (payload : P) :
    List (H × Except E Unit) :=
  publishRun run payload (b.subs etype)

/-- Manager-visible events recorded in execution traces: the two
publications `_emit_job` / `_emit_overall` perform, plus a marker for
invocation of the external conversion collaborator. -/
inductive MgrEvent where
  | jobUpdated (idx : Nat) (job : JobItem)
  | overallUpdated
  | convertCalled (idx : Nat)
deriving DecidableEq, Repr

/-- TaskManager state from `core/tasks.py` (the fields of `__init__`).
`queue = none` models `self._queue is None`; `hasExecutor` models
`self._executor is not None`; `futures` models `len(self._futures)`. -/
structure TaskManager where
  threads : Nat
  queueCapacity : Nat
  hasExecutor : Bool
  futures : Nat
  pausedFlag : Bool
  stopFlag : Bool
  queue : Option (List Nat)
  pausedBuffer : List Nat
  jobsRef : Option (List JobItem)
deriving DecidableEq, Repr, Inhabited

/-- Constructor `TaskManager.__init__`: clamps the thread count with
`max(1, threads)` and computes
`max(1, int(queue_capacity or (self._threads * 2)))`; Python's `or` treats
`None` and `0` as falsy. The callback / event-bus parameters are modelled by
the event traces the operations return. -/
def TaskManager.init (threads : Int) (queue_capacity : Option Int) :
    TaskManager where
  threads := (max 1 threads).toNat
  queueCapacity :=
    (max 1 (match queue_capacity with
      | none => max 1 threads * 2
      | some c => if c = 0 then max 1 threads * 2 else c)).toNat
  hasExecutor := false
  futures := 0
  pausedFlag := false
  stopFlag := false
  queue := none
  pausedBuffer := []
  jobsRef := none

/-- `set_threads`: `self._threads = max(1, n)`; takes effect at the next
`start`. -/
def TaskManager.set_threads (m : TaskManager) (n : Int) : TaskManager :=
  { m with threads := (max 1 n).toNat }

/-- The skip condition of the fill loop in `TaskManager.start`:
`job.status in (JobStatus.COMPLETED, JobStatus.RUNNING, JobStatus.CANCELLED)`. -/
def skipStatus : JobStatus → Bool
  | JobStatus.completed | JobStatus.running | JobStatus.cancelled => true
  | _ => false

/-- Bounded-queue `put(idx, timeout=...)`: succeeds (appends at the back)
exactly when the queue has a free slot, otherwise raises `queue.Full`
(modelled as `none`). -/
def qput (cap : Nat) (q : List Nat) (idx : Nat) : Option (List Nat) :=
  if q.length < cap then some (q ++ [idx]) else none

/-- The fill loop of `TaskManager.start` (`for idx, job in enumerate(jobs)`).
Per iteration: break if the stop flag is set; skip jobs whose status is
Completed/Running/Cancelled; otherwise, unless the job is Paused, mark it
Waiting and emit a JobUpdated publication; then `put` the index with a short
timeout — on `queue.Full`, break if the stop or pause flag is set, else the
exception is swallowed and the loop continues with the next job. Returns the
updated job list, the queue contents and the emitted events. -/
def startFill (sF pF : Bool) (cap : Nat) :
    List Nat → List JobItem → List Nat → List MgrEvent →
    List JobItem × List Nat × List MgrEvent
  | [], jobs, q, evs => (jobs, q, evs)
  | idx :: rest, jobs, q, evs =>
    if sF then (jobs, q, evs)
    else
      match jobs[idx]? with
      | none => startFill sF pF cap rest jobs q evs
      | some job =>
        if skipStatus job.status then
          startFill sF pF cap rest jobs q evs
        else
          let p :=
            if job.status = JobStatus.paused then (jobs, evs)
            else (jobs.set idx { job with status := JobStatus.waiting },
                  evs ++ [MgrEvent.jobUpdated idx
                            { job with status := JobStatus.waiting }])
          match qput cap q idx with
          | some q2 => startFill sF pF cap rest p.1 q2 p.2
          | none =>
            if sF || pF then (p.1, q, p.2)
            else startFill sF pF cap rest p.1 q p.2

/-- The locked prologue of `TaskManager.start`: retain the caller's job
list; if no executor exists, clear both flags, create the pool, the bounded
queue and the worker futures; otherwise treat the call as "continue" and
only clear the pause flag. -/
def TaskManager.startSetup (m : TaskManager) (jobs : List JobItem) :
    TaskManager :=
  if m.hasExecutor then
    { m with jobsRef := some jobs, pausedFlag := false }
  else
    { m with jobsRef := some jobs, pausedFlag := false, stopFlag := false,
             hasExecutor := true, futures := m.threads,
             queue := some [] }

/-- `TaskManager.start`: prologue followed by the fill loop. `none` models
the `assert self._queue is not None` failing (never the case for states the
manager itself produces). -/
def TaskManager.start (m : TaskManager) (jobs : List JobItem) :
    Option (TaskManager × List MgrEvent) :=
  let m1 := m.startSetup jobs
  match m1.queue with
  | none => none
  | some q0 =>
    let r := startFill m1.stopFlag m1.pausedFlag m1.queueCapacity
      (List.range jobs.length) jobs q0 []
    some ({ m1 with jobsRef := some r.1, queue := some r.2.1 }, r.2.2)

/-- `TaskManager.pause`: set the pause flag; if the queue and the job list
exist, drain every index from the queue (FIFO order) into the pause buffer
and mark each drained in-range job Paused, emitting a JobUpdated publication
per job. -/
def TaskManager.pause (m : TaskManager) : TaskManager × List MgrEvent :=
  let m1 := { m with pausedFlag := true }
  match m1.queue, m1.jobsRef with
  | some q, some jobs =>
    let step := fun (p : List JobItem × List MgrEvent) (idx : Nat) =>
      match p.1[idx]? with
      | some jb =>
        let jb2 := { jb with status := JobStatus.paused }
        (p.1.set idx jb2, p.2 ++ [MgrEvent.jobUpdated idx jb2])
      | none => p
    let r := q.foldl step (jobs, [])
    ({ m1 with queue := some [], pausedBuffer := m1.pausedBuffer ++ q,
               jobsRef := some r.1 }, r.2)
  | _, _ => (m1, [])

/-- The refill loop of `TaskManager.resume`: pop the front of the pause
buffer and `put` it with a short timeout; on `queue.Full` break — note the
popped index is then in neither the buffer nor the queue. -/
def resumeLoop (cap : Nat) : List Nat → List Nat → List Nat × List Nat
  | q, [] => (q, [])
  | q, idx :: rest =>
    match qput cap q idx with
    | some q2 => resumeLoop cap q2 rest
    | none => (q, rest)

/-- `TaskManager.resume`: clear the pause flag; if a queue exists, refill it
from the pause buffer in original order. -/
def TaskManager.resume (m : TaskManager) : TaskManager :=
  let m1 := { m with pausedFlag := false }
  match m1.queue with
  | none => m1
  | some q =>
    let r := resumeLoop m1.queueCapacity q m1.pausedBuffer
    { m1 with queue := some r.1, pausedBuffer := r.2 }

/-- `TaskManager.stop`: set the stop flag and clear the pause flag; call
`cancel()` on every job's token (`self._jobs_ref or []`); drain and discard
the queue; shut down the executor fire-and-forget; clear the futures list,
the queue reference and the pause buffer. Job statuses are not touched. -/
def TaskManager.stop (m : TaskManager) : TaskManager :=
  { m with stopFlag := true, pausedFlag := false,
           jobsRef :=
             m.jobsRef.map (List.map (fun j => { j with token := j.token.cancel })),
           queue := none, hasExecutor := false, futures := 0,
           pausedBuffer := [] }

/-- One iteration of `TaskManager._worker_loop`. `none` means the loop
terminates (stop flag set at the `while` check, or queue / job list gone);
`some (m2, evs)` is the state and emitted events after one pass of the body
(`queue.Empty` after the poll timeout gives an empty pass). `conv` is the
external `build_output_path` + `converter.convert_one` collaborator;
`Except.error e` models an exception carrying `str(e)`. -/
def TaskManager.workerIteration
    (conv : Nat → JobItem → Except String (Nat × Nat)) (m : TaskManager) :
    Option (TaskManager × List MgrEvent) :=
  if m.stopFlag then none
  else
    match m.queue, m.jobsRef with
    | none, _ => none
    | some _, none => none
    | some q, some jobs =>
      match q with
      | [] => some (m, [])
      | idx :: qrest =>
        let m1 := { m with queue := some qrest }
        match jobs[idx]? with
        | none => some (m1, [])
        | some job =>
          if job.token.cancelled then
            let job2 := { job with status := JobStatus.cancelled
                                   progress := 100 }
            some ({ m1 with jobsRef := some (jobs.set idx job2) },
                  [MgrEvent.jobUpdated idx job2, MgrEvent.overallUpdated])
          else
            let job1 := { job with status := JobStatus.running
                                   progress := 1
                                   error := none }
            let jobs1 := jobs.set idx job1
            match conv idx job1 with
            | Except.ok wh =>
              let job2 := { job1 with orig_size := wh
                                      progress := 100
                                      status := JobStatus.completed }
              some ({ m1 with jobsRef := some (jobs1.set idx job2) },
                    [MgrEvent.jobUpdated idx job1, MgrEvent.convertCalled idx,
                     MgrEvent.jobUpdated idx job2, MgrEvent.overallUpdated])
            | Except.error e =>
              let job2 := { job1 with status := JobStatus.failed
                                      error := some e
                                      progress := 100 }
              some ({ m1 with jobsRef := some (jobs1.set idx job2) },
                    [MgrEvent.jobUpdated idx job1, MgrEvent.convertCalled idx,
                     MgrEvent.jobUpdated idx job2, MgrEvent.overallUpdated])

/-- Specification-side predicate: index `i` names a job the fill loop does
not skip (its status is not Completed/Running/Cancelled). -/
def runnableAt (jobs : List JobItem) (i : Nat) : Bool :=
  match jobs[i]? with
  | some j => !skipStatus j.status
  | none => false

/-! Theorems. -/

lemma publishRun_eq_map {H P E : Type} (run : H → P → Except E Unit) (p : P) :
    ∀ hs : List H, publishRun run p hs = hs.map (fun h => (h, run h p)) := by
  intro hs
  induction hs with
  | nil => rfl
  | cons h rest ih =>
    cases hr : run h p <;> simp [publishRun, hr, ih]

/-- C7: for every event type and every list of subscribed handlers,
`EventBus.publish` invokes the handlers in registration order (`subscribe`
appends, `publish` walks the list front to back); a handler that raises is
caught and ignored, every remaining handler is still invoked, and `publish`
never propagates a handler failure to the caller: whatever the outcomes
`run` assigns to the handlers, the publication trace is exactly one
invocation per registered handler, in order, and `publish` returns normally. -/
theorem publish_invokes_all_in_order {H P E : Type} (b : EventBus H)
    (run : H → P → Except E Unit) (t : EventType) (p : P) (h : H) :
    EventBus.publish run b t p = (b.subs t).map (fun g => (g, run g p)) ∧
    (EventBus.subscribe b t h).subs t = b.subs t ++ [h] := by
  constructor
  · exact publishRun_eq_map run p (b.subs t)
  · simp [EventBus.subscribe]

/-- C9: the worker-pool size and the queue capacity are always at least 1:
the constructor and `set_threads` clamp the thread count to `max(1, n)`,
and when `queue_capacity` is omitted (`none`) or `0` the capacity is exactly
2 times the thread count. -/
theorem init_clamps_threads_capacity (t n : Int) (qc : Option Int)
    (m : TaskManager) :
    (TaskManager.init t qc).threads = (max 1 t).toNat ∧
    1 ≤ (TaskManager.init t qc).threads ∧
    1 ≤ (TaskManager.init t qc).queueCapacity ∧
    (TaskManager.init t none).queueCapacity
      = 2 * (TaskManager.init t none).threads ∧
    (TaskManager.init t (some 0)).queueCapacity
      = 2 * (TaskManager.init t (some 0)).threads ∧
    (m.set_threads n).threads = (max 1 n).toNat ∧
    1 ≤ (m.set_threads n).threads := by
  have h1 : (1 : Int) ≤ max 1 t := le_max_left 1 t
  have h2 : max 1 (max 1 t * 2) = max 1 t * 2 :=
    max_eq_right (by linarith)
  have h3 : (1 : Int) ≤ max 1 n := le_max_left 1 n
  refine ⟨rfl, by simp [TaskManager.init], ?_, ?_, ?_, rfl,
    by simp [TaskManager.set_threads]⟩
  · simp only [TaskManager.init]
    have h4 : (1 : Int) ≤ max 1 (match qc with
      | none => max 1 t * 2
      | some c => if c = 0 then max 1 t * 2 else c) := le_max_left _ _
    omega
  · simp only [TaskManager.init, h2]
    omega
  · simp only [TaskManager.init]
    norm_num [h2]
    omega

/-- C8: `stop` is idempotent — a second `stop` is a no-op (no error, same
state), the stopped manager has no executor, no queue and an empty pause
buffer, and a subsequent `start` of the doubly-stopped manager succeeds,
creating a fresh pool with both the stop and the pause flag cleared. -/
theorem stop_idempotent_start_fresh (m : TaskManager) (jobs : List JobItem) :
    m.stop.stop = m.stop ∧
    m.stop.hasExecutor = false ∧ m.stop.queue = none ∧
    m.stop.pausedBuffer = [] ∧
    ∃ m2 evs, m.stop.stop.start jobs = some (m2, evs) ∧
      m2.hasExecutor = true ∧ m2.stopFlag = false ∧ m2.pausedFlag = false := by
  refine ⟨?_, rfl, rfl, rfl, ⟨_, _, rfl, rfl, rfl, rfl⟩⟩
  cases hj : m.jobsRef with
  | none => simp [TaskManager.stop, hj]
  | some js =>
    have hff :
        ∀ l : List JobItem,
          List.map (fun j : JobItem => { j with token := j.token.cancel })
            (List.map (fun j : JobItem => { j with token := j.token.cancel }) l)
          = List.map (fun j : JobItem => { j with token := j.token.cancel }) l := by
      intro l
      induction l with
      | nil => rfl
      | cons a l2 ih =>
        simp only [List.map_cons, ih]
        rfl
    simp [TaskManager.stop, hj, hff js]

/-- C3 (amended), spec basis "Start() then Stop() immediately": `stop` sets
the stop flag, cancels every job's token, empties the queue, and the worker
loop then exits at once; but it leaves every job's `status` unchanged — a
job that no worker dequeued before `stop` keeps its prior status (Waiting),
it does not end `Cancelled`; only a job a worker dequeues with a cancelled
token before observing the stop flag is marked `Cancelled`. -/
theorem stop_cancels_tokens_preserves_status
    (conv : Nat → JobItem → Except String (Nat × Nat)) (m : TaskManager) :
    m.stop.stopFlag = true ∧ m.stop.queue = none ∧
    m.stop.jobsRef
      = m.jobsRef.map
          (List.map (fun j => { j with token := j.token.cancel })) ∧
    m.stop.workerIteration conv = none :=
  ⟨rfl, rfl, rfl, rfl⟩

def c3job : JobItem := { src_path := ("a.heic"), export_dir := ("out") }

/-- C3 (counterexample): a fresh manager, one Waiting job, `start` then
`stop` immediately (no worker dequeues in between — `stop` drained the
queue, so none ever will): the job's token is cancelled but its status
remains `Waiting`, not `Cancelled`, and the worker loop exits without
touching it — refuting "every job ends with status Cancelled except any
that had already reached Running". -/
theorem stop_leaves_waiting_cex :
    (((TaskManager.init 2 none).start [c3job]).map
      (fun r =>
        (r.1.stop.jobsRef.map
          (List.map (fun j => (j.status, j.token.cancelled))),
         r.1.stop.workerIteration (fun _ _ => Except.ok (1, 1)))))
      = some (some [(JobStatus.waiting, true)], none) ∧
    JobStatus.waiting ≠ JobStatus.cancelled := by
  exact ⟨rfl, by decide⟩

/-- C10: whenever a worker dequeues an index whose job's token is not
cancelled, it sets the job to Running with progress 1 and error cleared to
`none` and publishes a JobUpdated event carrying that snapshot, and only
then invokes the conversion collaborator: in the iteration's event trace
the Running JobUpdated publication strictly precedes the collaborator
invocation marker. -/
theorem worker_marks_running_before_convert
    (conv : Nat → JobItem → Except String (Nat × Nat)) (m : TaskManager)
    (idx : Nat) (qrest : List Nat) (jobs : List JobItem) (job : JobItem)
    (hstop : m.stopFlag = false) (hq : m.queue = some (idx :: qrest))
    (hj : m.jobsRef = some jobs) (hjob : jobs[idx]? = some job)
    (htok : job.token.cancelled = false) :
    ∃ m2 evs, m.workerIteration conv = some (m2, evs) ∧
      evs.take 2
        = [MgrEvent.jobUpdated idx
             { job with status := JobStatus.running, progress := 1, error := none },
           MgrEvent.convertCalled idx] := by
  simp only [TaskManager.workerIteration, hstop, hq, hj, hjob, htok]
  cases hconv : conv idx
      { job with status := JobStatus.running, progress := 1, error := none } with
  | ok wh => exact ⟨_, _, rfl, rfl⟩
  | error e => exact ⟨_, _, rfl, rfl⟩

def c10job : JobItem := { src_path := ("a.heic"), export_dir := ("out") }

def c10m : TaskManager :=
  { threads := 1, queueCapacity := 2, hasExecutor := true, futures := 1,
    pausedFlag := false, stopFlag := false, queue := some [0],
    pausedBuffer := [], jobsRef := some [c10job] }

/-- C10 (witness): concrete run of the theorem on a one-job manager. -/
theorem worker_marks_running_before_convert_witness :
    ∃ m2 evs,
      c10m.workerIteration (fun _ _ => Except.ok (8, 6)) = some (m2, evs) ∧
      evs.take 2
        = [MgrEvent.jobUpdated 0
             { c10job with status := JobStatus.running, progress := 1, error := none },
           MgrEvent.convertCalled 0] :=
  worker_marks_running_before_convert (fun _ _ => Except.ok (8, 6)) c10m
    0 [] [c10job] c10job rfl rfl rfl rfl rfl

/-- C5 (amended): whenever a worker dequeues an index whose job's token is
already cancelled, it marks the job Cancelled with Progress = 100,
publishes JobUpdated then OverallUpdated, and does not invoke the
conversion collaborator (the result does not depend on `conv` and no
`convertCalled` marker is emitted) — but it leaves the job's `Error` field
unchanged rather than setting it to `none`: the cancelled branch does not
assign `job.error`. -/
theorem worker_cancelled_marks_without_convert
    (conv : Nat → JobItem → Except String (Nat × Nat)) (m : TaskManager)
    (idx : Nat) (qrest : List Nat) (jobs : List JobItem) (job : JobItem)
    (hstop : m.stopFlag = false) (hq : m.queue = some (idx :: qrest))
    (hj : m.jobsRef = some jobs) (hjob : jobs[idx]? = some job)
    (htok : job.token.cancelled = true) :
    m.workerIteration conv
      = some ({ m with
                queue := some qrest
                jobsRef := some (jobs.set idx
                  { job with status := JobStatus.cancelled, progress := 100 }) },
              [MgrEvent.jobUpdated idx
                 { job with status := JobStatus.cancelled, progress := 100 },
               MgrEvent.overallUpdated]) := by
  simp only [TaskManager.workerIteration, hstop, hq, hj, hjob, htok]
  rfl

def c5wjob : JobItem :=
  { src_path := ("b.heic"), export_dir := ("out"), token := { cancelled := true } }

def c5wm : TaskManager :=
  { threads := 1, queueCapacity := 2, hasExecutor := true, futures := 1,
    pausedFlag := false, stopFlag := false, queue := some [0],
    pausedBuffer := [], jobsRef := some [c5wjob] }

/-- C5 (witness): concrete run of the amended theorem on a one-job manager
whose job's token was cancelled before the worker dequeued it. -/
theorem worker_cancelled_marks_without_convert_witness :
    c5wm.workerIteration (fun _ _ => Except.ok (1, 1))
      = some ({ c5wm with
                queue := some []
                jobsRef := some ([c5wjob].set 0
                  { c5wjob with status := JobStatus.cancelled, progress := 100 }) },
              [MgrEvent.jobUpdated 0
                 { c5wjob with status := JobStatus.cancelled, progress := 100 },
               MgrEvent.overallUpdated]) :=
  worker_cancelled_marks_without_convert (fun _ _ => Except.ok (1, 1))
    c5wm 0 [] [c5wjob] c5wjob rfl rfl rfl rfl rfl

def c5job : JobItem :=
  { src_path := ("a.heic"), export_dir := ("out"), error := some ("boom"),
    token := { cancelled := true } }

def c5m : TaskManager :=
  { threads := 1, queueCapacity := 2, hasExecutor := true, futures := 1,
    pausedFlag := false, stopFlag := false, queue := some [0],
    pausedBuffer := [], jobsRef := some [c5job] }

/-- C5 (counterexample): a job that failed earlier (`error = "boom"`, as
after a failed run re-enqueued by `start`, which does not clear `error`)
and whose token is cancelled before the worker dequeues it: the worker
marks it Cancelled with Progress 100 but its `Error` stays `"boom"`,
not `nil` — refuting the claim's "marks the job Cancelled ... and
Error=nil". -/
theorem cancelled_job_keeps_error_cex :
    ((c5m.workerIteration (fun _ _ => Except.ok (1, 1))).map
      (fun r => (r.1.jobsRef.map
        (List.map (fun j => (j.status, j.progress, j.error))), r.2.length)))
      = some (some [(JobStatus.cancelled, 100, some ("boom"))], 2) ∧
    (some ("boom") : Option String) ≠ none :=
  ⟨rfl, by decide⟩

/-- C6 (amended): `resume` re-enqueues buffered indices without changing any
job's status (the job list is untouched), so a paused job goes directly
from Paused to Running when a worker dequeues its index with the token not
cancelled — the worker's first publication for it carries a Running
snapshot; Waiting is not an intermediate state (a paused job transitions
out of Paused to Running, Completed/Failed thereafter, or to Cancelled via
its token). -/
theorem resume_keeps_paused_worker_runs_directly
    (conv : Nat → JobItem → Except String (Nat × Nat)) (m : TaskManager)
    (idx : Nat) (qrest : List Nat) (jobs : List JobItem) (job : JobItem)
    (hstop : m.stopFlag = false) (hq : m.queue = some (idx :: qrest))
    (hj : m.jobsRef = some jobs) (hjob : jobs[idx]? = some job)
    (hpaused : job.status = JobStatus.paused)
    (htok : job.token.cancelled = false) :
    (m.resume).jobsRef = m.jobsRef ∧
    ∃ m2 evs, m.workerIteration conv = some (m2, evs) ∧
      evs.head?
        = some (MgrEvent.jobUpdated idx
            { job with status := JobStatus.running, progress := 1, error := none }) := by
  constructor
  · simp only [TaskManager.resume, hq]
  · simp only [TaskManager.workerIteration, hstop, hq, hj, hjob, htok]
    cases hconv : conv idx
        { job with status := JobStatus.running, progress := 1, error := none } with
    | ok wh => exact ⟨_, _, rfl, rfl⟩
    | error e => exact ⟨_, _, rfl, rfl⟩

def c6wjob : JobItem :=
  { src_path := ("b.heic"), export_dir := ("out"), status := JobStatus.paused }

def c6wm : TaskManager :=
  { threads := 1, queueCapacity := 2, hasExecutor := true, futures := 1,
    pausedFlag := false, stopFlag := false, queue := some [0],
    pausedBuffer := [], jobsRef := some [c6wjob] }

/-- C6 (witness): concrete run of the amended theorem on a manager holding
one paused job whose index a worker dequeues. -/
theorem resume_keeps_paused_worker_runs_directly_witness :
    (c6wm.resume).jobsRef = c6wm.jobsRef ∧
    ∃ m2 evs,
      c6wm.workerIteration (fun _ _ => Except.ok (8, 6)) = some (m2, evs) ∧
      evs.head?
        = some (MgrEvent.jobUpdated 0
            { c6wjob with status := JobStatus.running, progress := 1, error := none }) :=
  resume_keeps_paused_worker_runs_directly (fun _ _ => Except.ok (8, 6))
    c6wm 0 [] [c6wjob] c6wjob rfl rfl rfl rfl rfl rfl

def c6job : JobItem :=
  { src_path := ("a.heic"), export_dir := ("out"), status := JobStatus.paused }

def c6m : TaskManager :=
  { threads := 1, queueCapacity := 2, hasExecutor := true, futures := 1,
    pausedFlag := false, stopFlag := false, queue := some [0],
    pausedBuffer := [], jobsRef := some [c6job] }

/-- C6 (counterexample): a paused job whose index sits in the queue (as
`start` pushes paused jobs' indices leaving their status Paused, and
`resume` re-enqueues buffered indices without resetting status): `resume`
leaves its status Paused — no Paused → Waiting transition — and the worker
then publishes a Running snapshot for it, i.e. the job is taken from
Paused directly to Running, refuting "reaching Running requires first
being in Waiting". -/
theorem paused_to_running_cex :
    c6job.status = JobStatus.paused ∧
    ((c6m.resume).jobsRef.map (List.map JobItem.status))
      = some [JobStatus.paused] ∧
    ((c6m.workerIteration (fun _ _ => Except.ok (8, 6))).map
      (fun r => r.2.head?))
      = some (some (MgrEvent.jobUpdated 0
          { c6job with status := JobStatus.running, progress := 1, error := none })) ∧
    JobStatus.running ≠ JobStatus.waiting :=
  ⟨rfl, rfl, rfl, by decide⟩

lemma resumeLoop_complete (cap : Nat) :
    ∀ (buf q : List Nat), q.length + buf.length ≤ cap →
      resumeLoop cap q buf = (q ++ buf, []) := by
  intro buf
  induction buf with
  | nil => intro q h; simp [resumeLoop]
  | cons idx rest ih =>
    intro q h
    have hlt : q.length < cap := by
      simp only [List.length_cons] at h
      omega
    simp only [resumeLoop, qput, if_pos hlt]
    rw [ih (q ++ [idx]) (by simp only [List.length_append, List.length_cons,
      List.length_nil] at h ⊢; omega)]
    simp

/-- C4 (amended): `pause` immediately followed by `resume`, with no
intervening `start`, conserves the multiset of job indices held in the
queue plus the pause buffer, provided the total number of indices in
queue + buffer does not exceed the queue capacity (then every buffered
index is re-enqueued and the buffer empties); without that bound the
refill `put` can time out and `resume` drops the index it had already
popped from the buffer. -/
theorem pause_resume_conserves_within_capacity
    (m : TaskManager) (q : List Nat) (jobs : List JobItem)
    (hq : m.queue = some q) (hj : m.jobsRef = some jobs)
    (hcap : q.length + m.pausedBuffer.length ≤ m.queueCapacity) :
    (((m.pause).1.resume).queue.getD [] ++
      ((m.pause).1.resume).pausedBuffer).Perm (q ++ m.pausedBuffer) := by
  simp only [TaskManager.pause, hq, hj, TaskManager.resume]
  rw [resumeLoop_complete m.queueCapacity (m.pausedBuffer ++ q) []
    (by simp only [List.length_append, List.length_nil]; omega)]
  simp only [List.nil_append, List.append_nil, Option.getD_some]
  exact List.perm_append_comm

def c4wjob : JobItem := { src_path := ("a.heic"), export_dir := ("out") }

def c4wm : TaskManager :=
  { threads := 1, queueCapacity := 2, hasExecutor := true, futures := 1,
    pausedFlag := false, stopFlag := false, queue := some [0],
    pausedBuffer := [], jobsRef := some [c4wjob] }

/-- C4 (witness): concrete pause/resume cycle within capacity — the single
queued index survives the cycle. -/
theorem pause_resume_conserves_within_capacity_witness :
    (((c4wm.pause).1.resume).queue.getD [] ++
      ((c4wm.pause).1.resume).pausedBuffer).Perm ([0] ++ []) :=
  pause_resume_conserves_within_capacity c4wm [0] [c4wjob] rfl rfl
    (by decide)

def c4job : JobItem := { src_path := ("a.heic"), export_dir := ("out") }

def c4m : TaskManager :=
  { threads := 1, queueCapacity := 1, hasExecutor := true, futures := 1,
    pausedFlag := false, stopFlag := false, queue := some [0],
    pausedBuffer := [0], jobsRef := some [c4job] }

/-- C4 (counterexample): a state with queue `[0]` and pause buffer `[0]` at
capacity 1 (reachable with one job and capacity 1: `start`, `pause`,
`start` again — the restart re-pushes the paused job's index while the
buffer still holds its copy). `pause` moves everything to the buffer
(`[0,0]`); `resume` re-enqueues one copy, the second `put` times out on the
full queue and `resume` drops the index it popped: queue+buffer afterwards
hold one index where they held two — the multiset is not conserved,
refuting the claim for arbitrary manager states. -/
theorem pause_resume_loses_index_cex :
    (((c4m.pause).1.resume).queue, ((c4m.pause).1.resume).pausedBuffer)
      = (some [0], []) ∧
    ¬ (([0] ++ ([] : List Nat)).Perm ([0] ++ [0])) :=
  ⟨rfl, by decide⟩

lemma startFill_skip_invariant (sF pF : Bool) (cap : Nat) (i : Nat)
    (job : JobItem) :
    ∀ (idxs : List Nat) (jobs : List JobItem) (q : List Nat)
      (evs : List MgrEvent),
      jobs[i]? = some job → skipStatus job.status = true →
      (startFill sF pF cap idxs jobs q evs).1[i]? = some job ∧
      (startFill sF pF cap idxs jobs q evs).2.1.count i = q.count i := by
  intro idxs
  induction idxs with
  | nil =>
    intro jobs q evs hi _
    exact ⟨hi, rfl⟩
  | cons idx rest ih =>
    intro jobs q evs hi hskip
    cases hsF : sF with
    | true =>
      simp only [startFill, reduceIte]
      exact ⟨hi, by simp⟩
    | false =>
      subst hsF
      simp only [startFill, reduceIte]
      cases hjx : jobs[idx]? with
      | none =>
        exact ih jobs q evs hi hskip
      | some jobx =>
        by_cases hskx : skipStatus jobx.status = true
        · simp only [hskx, reduceIte]
          exact ih jobs q evs hi hskip
        · have hne : idx ≠ i := by
            intro he
            subst he
            rw [hi] at hjx
            injection hjx with hx
            rw [hx] at hskip
            exact hskx hskip
          simp only [Bool.not_eq_true] at hskx
          simp only [hskx, Bool.false_eq_true, reduceIte]
          by_cases hp : jobx.status = JobStatus.paused
          · simp only [if_pos hp]
            cases hqp : qput cap q idx with
            | some q2 =>
              have hcnt : q2.count i = q.count i := by
                unfold qput at hqp
                split at hqp
                · injection hqp with hq2
                  rw [← hq2, List.count_append, List.count_singleton']
                  simp [hne]
                · exact absurd hqp (by simp)
              obtain ⟨h1, h2⟩ := ih jobs q2 evs hi hskip
              exact ⟨h1, by rw [h2, hcnt]⟩
            | none =>
              cases pF with
              | true =>
                simp only [Bool.false_or, reduceIte]
                exact ⟨hi, by simp⟩
              | false =>
                simp only [Bool.false_or, reduceIte]
                exact ih jobs q evs hi hskip
          · simp only [if_neg hp]
            have hi2 :
                (jobs.set idx { jobx with status := JobStatus.waiting })[i]?
                  = some job := by
              rw [List.getElem?_set_ne hne]
              exact hi
            cases hqp : qput cap q idx with
            | some q2 =>
              have hcnt : q2.count i = q.count i := by
                unfold qput at hqp
                split at hqp
                · injection hqp with hq2
                  rw [← hq2, List.count_append, List.count_singleton']
                  simp [hne]
                · exact absurd hqp (by simp)
              obtain ⟨h1, h2⟩ := ih _ q2 _ hi2 hskip
              exact ⟨h1, by rw [h2, hcnt]⟩
            | none =>
              cases pF with
              | true =>
                simp only [Bool.false_or, reduceIte]
                exact ⟨hi2, by simp⟩
              | false =>
                simp only [Bool.false_or, reduceIte]
                exact ih _ q _ hi2 hskip

/-- C1 (amended): a job whose status is `Completed` or `Cancelled` (the two
terminal statuses in the fill loop's skip tuple — which also skips
`Running`) is never re-enqueued by `start`: the job is left unchanged and
its index is pushed onto the queue zero additional times. `Failed`,
although terminal, is not in the skip tuple: `start` re-enqueues failed
jobs (see the counterexample). -/
theorem start_skips_completed_cancelled
    (m m2 : TaskManager) (jobs : List JobItem) (evs : List MgrEvent)
    (i : Nat) (job : JobItem)
    (hstart : m.start jobs = some (m2, evs))
    (hjob : jobs[i]? = some job)
    (hterm : job.status = JobStatus.completed ∨
             job.status = JobStatus.cancelled) :
    (∃ jobs2, m2.jobsRef = some jobs2 ∧ jobs2[i]? = some job) ∧
    (∃ q0 q2, (m.startSetup jobs).queue = some q0 ∧ m2.queue = some q2 ∧
      q2.count i = q0.count i) := by
  have hskip : skipStatus job.status = true := by
    rcases hterm with h | h <;> rw [h] <;> rfl
  simp only [TaskManager.start] at hstart
  cases hq0 : (m.startSetup jobs).queue with
  | none =>
    rw [hq0] at hstart
    simp at hstart
  | some q0 =>
    rw [hq0] at hstart
    simp only [Option.some.injEq, Prod.mk.injEq] at hstart
    obtain ⟨hA, hB⟩ := hstart
    subst hA
    obtain ⟨hL, hC⟩ := startFill_skip_invariant
      (m.startSetup jobs).stopFlag (m.startSetup jobs).pausedFlag
      (m.startSetup jobs).queueCapacity i job
      (List.range jobs.length) jobs q0 [] hjob hskip
    exact ⟨⟨_, rfl, hL⟩, ⟨q0, _, rfl, rfl, hC⟩⟩

def c1wjob : JobItem :=
  { src_path := ("b.heic"), export_dir := ("out"),
    status := JobStatus.completed }

def c1wres : TaskManager × List MgrEvent :=
  ((TaskManager.init 1 none).start [c1wjob]).getD default

/-- C1 (witness): a fresh one-thread manager started on a single Completed
job — the job is untouched and nothing is enqueued for it. -/
theorem start_skips_completed_cancelled_witness :
    (∃ jobs2, c1wres.1.jobsRef = some jobs2 ∧ jobs2[0]? = some c1wjob) ∧
    (∃ q0 q2,
      ((TaskManager.init 1 none).startSetup [c1wjob]).queue = some q0 ∧
      c1wres.1.queue = some q2 ∧ q2.count 0 = q0.count 0) :=
  start_skips_completed_cancelled (TaskManager.init 1 none) c1wres.1
    [c1wjob] c1wres.2 0 c1wjob rfl rfl (Or.inl rfl)

def c1job : JobItem :=
  { src_path := ("a.heic"), export_dir := ("out"),
    status := JobStatus.failed, error := some ("boom") }

/-- C1 (counterexample): `start` on a single `Failed` job — a terminal
status per the claim — re-enqueues it: the fill loop's skip tuple is
`(COMPLETED, RUNNING, CANCELLED)` only, so the job's status is overwritten
to `Waiting` and its index 0 is pushed onto the queue, refuting "a job
whose status is a terminal status (Completed, Failed, or Cancelled) is
never re-enqueued". -/
theorem start_reenqueues_failed_cex :
    c1job.status = JobStatus.failed ∧
    (((TaskManager.init 1 none).start [c1job]).map
      (fun r => (r.1.jobsRef.map (List.map JobItem.status), r.1.queue)))
      = some (some [JobStatus.waiting], some [0]) ∧
    JobStatus.waiting ≠ JobStatus.failed :=
  ⟨rfl, rfl, by decide⟩

lemma runnableAt_set_waiting (jobs : List JobItem) (idx : Nat)
    (jobx : JobItem) (hjx : jobs[idx]? = some jobx)
    (hskx : skipStatus jobx.status = false) :
    ∀ i, runnableAt (jobs.set idx { jobx with status := JobStatus.waiting }) i
      = runnableAt jobs i := by
  intro i
  by_cases h : idx = i
  · subst h
    have hlt : idx < jobs.length := by
      cases Nat.lt_or_ge idx jobs.length with
      | inl hl => exact hl
      | inr hr => rw [List.getElem?_eq_none hr] at hjx; cases hjx
    simp only [runnableAt, List.getElem?_set_eq_of_lt _ hlt, hjx, hskx]
    rfl
  · simp only [runnableAt, List.getElem?_set_ne h]

lemma startFill_fills_all (cap : Nat) :
    ∀ (idxs : List Nat) (jobs : List JobItem) (q : List Nat)
      (evs : List MgrEvent),
      q.length + idxs.countP (fun i => runnableAt jobs i) ≤ cap →
      (startFill false false cap idxs jobs q evs).2.1
        = q ++ idxs.filter (fun i => runnableAt jobs i) := by
  intro idxs
  induction idxs with
  | nil =>
    intro jobs q evs _
    simp [startFill]
  | cons idx rest ih =>
    intro jobs q evs h
    cases hjx : jobs[idx]? with
    | none =>
      have hr : runnableAt jobs idx = false := by
        simp only [runnableAt, hjx]
      have h2 : q.length + rest.countP (fun i => runnableAt jobs i) ≤ cap := by
        rw [List.countP_cons, hr] at h
        omega
      simp only [startFill, hjx, Bool.false_eq_true, if_false]
      rw [ih jobs q evs h2, List.filter_cons_of_neg (by rw [hr]; simp)]
    | some jobx =>
      by_cases hskx : skipStatus jobx.status = true
      · have hr : runnableAt jobs idx = false := by
          simp only [runnableAt, hjx, hskx, Bool.not_true]
        have h2 : q.length + rest.countP (fun i => runnableAt jobs i) ≤ cap := by
          rw [List.countP_cons, hr] at h
          omega
        simp only [startFill, hjx, hskx, Bool.false_eq_true, if_false,
          eq_self_iff_true, if_true]
        rw [ih jobs q evs h2, List.filter_cons_of_neg (by rw [hr]; simp)]
      · simp only [Bool.not_eq_true] at hskx
        have hr : runnableAt jobs idx = true := by
          simp only [runnableAt, hjx, hskx, Bool.not_false]
        have hc : (idx :: rest).countP (fun i => runnableAt jobs i)
            = rest.countP (fun i => runnableAt jobs i) + 1 := by
          rw [List.countP_cons, hr]
          simp
        have hlen : q.length < cap := by
          rw [hc] at h
          omega
        have hqp : qput cap q idx = some (q ++ [idx]) := by
          rw [qput, if_pos hlen]
        simp only [startFill, hjx, hskx, Bool.false_eq_true, if_false, hqp]
        by_cases hp : jobx.status = JobStatus.paused
        · simp only [if_pos hp]
          rw [ih jobs (q ++ [idx]) evs
            (by rw [List.length_append, List.length_cons, List.length_nil]
                rw [hc] at h
                omega)]
          rw [List.filter_cons_of_pos hr, List.append_assoc]
          rfl
        · simp only [if_neg hp]
          have hpres := runnableAt_set_waiting jobs idx jobx hjx hskx
          have hcnt :
              rest.countP (fun i => runnableAt
                (jobs.set idx { jobx with status := JobStatus.waiting }) i)
              = rest.countP (fun i => runnableAt jobs i) :=
            List.countP_congr (fun a _ => by rw [hpres a])
          have hfil :
              rest.filter (fun i => runnableAt
                (jobs.set idx { jobx with status := JobStatus.waiting }) i)
              = rest.filter (fun i => runnableAt jobs i) :=
            List.filter_congr (fun a _ => by rw [hpres a])
          rw [ih (jobs.set idx { jobx with status := JobStatus.waiting })
            (q ++ [idx]) _
            (by rw [List.length_append, List.length_cons, List.length_nil, hcnt]
                rw [hc] at h
                omega)]
          rw [hfil, List.filter_cons_of_pos hr, List.append_assoc]
          rfl

/-- C2 (amended): in `start`'s fill loop pushing blocks with a short
timeout, and the loop aborts early only when the stop flag or the pause
flag is set (on a fresh `start` both are cleared, so the loop examines
every job); when neither flag is set, no runnable job is dropped — every
job not skipped as Completed/Running/Cancelled has its index pushed onto
the queue, in list order — provided the runnable jobs fit the queue
capacity; a push that times out on a full queue with neither flag set is
silently swallowed and that job's index is dropped while the loop
continues (see the counterexample). -/
theorem start_fill_no_drop_within_capacity
    (m m2 : TaskManager) (jobs : List JobItem) (evs : List MgrEvent)
    (hfresh : m.hasExecutor = false)
    (hstart : m.start jobs = some (m2, evs))
    (hcap : (List.range jobs.length).countP (fun i => runnableAt jobs i)
      ≤ m.queueCapacity) :
    m2.queue = some ((List.range jobs.length).filter
      (fun i => runnableAt jobs i)) := by
  simp only [TaskManager.start, TaskManager.startSetup, hfresh,
    Bool.false_eq_true, if_false, Option.some.injEq, Prod.mk.injEq] at hstart
  obtain ⟨hA, _⟩ := hstart
  subst hA
  rw [startFill_fills_all m.queueCapacity (List.range jobs.length) jobs [] []
    (by simpa using hcap)]
  simp

def c2wjob : JobItem := { src_path := ("b.heic"), export_dir := ("out") }

def c2wres : TaskManager × List MgrEvent :=
  ((TaskManager.init 1 none).start [c2wjob]).getD default

/-- C2 (witness): a fresh one-thread manager (capacity 2) started on one
Waiting job — the job's index is pushed and nothing is dropped. -/
theorem start_fill_no_drop_within_capacity_witness :
    c2wres.1.queue = some ((List.range [c2wjob].length).filter
      (fun i => runnableAt [c2wjob] i)) :=
  start_fill_no_drop_within_capacity (TaskManager.init 1 none) c2wres.1
    [c2wjob] c2wres.2 rfl rfl (by decide)

def c2job1 : JobItem := { src_path := ("a1.heic"), export_dir := ("out") }

def c2job2 : JobItem := { src_path := ("a2.heic"), export_dir := ("out") }

def c2job3 : JobItem := { src_path := ("a3.heic"), export_dir := ("out") }

/-- C2 (counterexample): a fresh manager with queue capacity 1 started on
three Waiting jobs with no worker consuming within the put timeout: the
fill loop pushes index 0, then the puts of indices 1 and 2 time out with
neither the stop nor the pause flag set — the exceptions are swallowed and
the loop continues to the end (all three jobs get marked Waiting, three
JobUpdated events), but indices 1 and 2 are silently dropped: runnable
jobs whose indices are never pushed onto the queue, refuting "when neither
flag is set, no runnable job is silently dropped". -/
theorem start_fill_drops_on_full_cex :
    (((TaskManager.init 1 (some 1)).start [c2job1, c2job2, c2job3]).map
      (fun r => (r.1.queue, r.1.jobsRef.map (List.map JobItem.status),
                 r.2.length, r.1.stopFlag, r.1.pausedFlag)))
      = some (some [0],
              some [JobStatus.waiting, JobStatus.waiting, JobStatus.waiting],
              3, false, false) ∧
    ¬ (1 ∈ [0]) ∧ ¬ (2 ∈ [0]) :=
  ⟨rfl, by decide, by decide⟩
